import Mathlib

/-!
Shallow embedding of the data/CRUD layer and workflow operations of the
project-management application (`src/app.py`) together with proofs of the
spec's testable properties.

Modelling conventions:
* SQLAlchemy tables become Lean lists of records held in a `Store`;
  nullable foreign-key columns become `Option Nat`.
* Python `float` hour quantities are modelled as `ℚ` (the claims involve
  only small decimal literals where binary rounding plays no role).
* `datetime` values are modelled at the granularity the claims need:
  a day index (`Nat`) counted from a fixed Monday epoch, so that both
  pandas weekly periods (Monday..Sunday, freq `W`/`W-SUN`) and ISO weeks
  partition day indices as `d / 7`.
* Python truthiness of an optional integer (`if project_id`,
  `if t.dependency_task_id`) is `pyTruthy`: `None` and `0` are falsy.
* Exceptions caught at the repository boundary (`IntegrityError`,
  generic `Exception`) become boolean results; external failure of the
  underlying engine is injected as an explicit flag where a claim is
  about the failure path.
-/

namespace PM

/-- Model of the `users` table (`User`, app.py lines 32-45). -/
structure SUser where
  id : Nat
  username : String
  email : String
  password_hash : String
  role : String
deriving DecidableEq, Repr

/-- Model of the `projects` table (`Project`, app.py lines 47-63).
Date columns are omitted: no claim mentions them. -/
structure SProject where
  id : Nat
  name : String
  status : String
  priority : String
  manager_id : Option Nat
deriving DecidableEq, Repr

/-- Model of the `tasks` table (`Task`, app.py lines 65-87).
`created_at` is the day index of the creation timestamp's date part. -/
structure STask where
  id : Nat
  title : String
  status : String
  priority : String
  estimate_hours : ℚ
  dependency_task_id : Option Nat
  sprint_id : Option Nat
  project_id : Option Nat
  assigned_to_id : Option Nat
  created_at : Nat
deriving DecidableEq, Repr

/-- Model of the `time_logs` table (`TimeLog`, app.py lines 89-99);
`log_date` is a day index. -/
structure STimeLog where
  id : Nat
  hours : ℚ
  log_date : Nat
  task_id : Option Nat
  user_id : Option Nat
deriving DecidableEq, Repr

/-- Model of the `risks` table (`Risk`, app.py lines 101-115). -/
structure SRisk where
  id : Nat
  name : String
  status : String
  project_id : Option Nat
  owner_id : Option Nat
deriving DecidableEq, Repr

/-- Model of the `sprints` table (`Sprint`, app.py lines 117-128). -/
structure SSprint where
  id : Nat
  name : String
  status : String
  project_id : Option Nat
deriving DecidableEq, Repr

/-- The relational store: one list per table, in insertion order
(SQLite returns unordered scans in rowid order for these queries). -/
structure Store where
  users : List SUser
  projects : List SProject
  tasks : List STask
  sprints : List SSprint
  risks : List SRisk
  time_logs : List STimeLog
deriving DecidableEq, Repr

/-- Python truthiness of an optional integer: `None` and `0` are falsy. -/
def pyTruthy : Option Nat → Bool
  | none => false
  | some n => n != 0

/-- Uniqueness conflict for the `users` table: `username` and `email`
carry `unique=True` constraints (app.py lines 36-37), so inserting a row
whose username or email already occurs raises `IntegrityError` at commit. -/
def user_conflict (s : Store) (u : SUser) : Bool :=
  s.users.any (fun v => v.username == u.username || v.email == u.email)

/-- Next autoincremented primary key for the `users` table. -/
def next_user_id (s : Store) : Nat :=
  (s.users.map (fun u => u.id)).foldr max 0 + 1

/-- Next autoincremented primary key for the `time_logs` table. -/
def next_log_id (s : Store) : Nat :=
  (s.time_logs.map (fun l => l.id)).foldr max 0 + 1

/-- Embedding of `DatabaseManager.create` (app.py lines 196-207) applied
to a `User` entity: `session.add` + `session.commit`; an `IntegrityError`
(duplicate username/email) is caught, the session is rolled back, and
`False` is returned, leaving the store unchanged.  The `id` field of the
argument is ignored and assigned by autoincrement, as for an ORM insert. -/
def create_user (s : Store) (u : SUser) : Store × Bool :=
  if user_conflict s u then (s, false)
  else ({ s with users := s.users ++ [{ u with id := next_user_id s }] }, true)

/-- Null-out of a nullable foreign-key column when its target row is
deleted: SQLAlchemy's default cascade on a one-to-many relationship
without a delete cascade issues `UPDATE child SET fk = NULL` for the
children of a deleted parent. -/
def null_dead_ref (dead : List Nat) (o : Option Nat) : Option Nat :=
  match o with
  | some i => if dead.contains i then none else some i
  | none => none

/-- Apply the delete-time null-outs to a surviving task: `Sprint.tasks`
(app.py line 128) and the `depends_on`/`dependent_tasks` self-reference
(app.py line 87) carry no delete cascade, so a surviving task that
references a deleted sprint or a deleted task gets that foreign key set
to NULL. -/
def null_dead_refs (dead_sprint_ids dead_task_ids : List Nat) (t : STask) : STask :=
  { t with
      sprint_id := null_dead_ref dead_sprint_ids t.sprint_id,
      dependency_task_id := null_dead_ref dead_task_ids t.dependency_task_id }

/-- Primary keys of the sprints removed by deleting project `p`. -/
def project_dead_sprint_ids (s : Store) (p : SProject) : List Nat :=
  (s.sprints.filter (fun sp => sp.project_id == some p.id)).map (fun sp => sp.id)

/-- Primary keys of the tasks removed by deleting project `p`. -/
def project_dead_task_ids (s : Store) (p : SProject) : List Nat :=
  (s.tasks.filter (fun t => t.project_id == some p.id)).map (fun t => t.id)

/-- Embedding of `DatabaseManager.read_all` (app.py lines 209-212):
`if project_id and hasattr(model, 'project_id'): ... filter ...`.
`proj` is `some f` when the model class has a `project_id` attribute
(accessor `f`), `none` when it does not (`User`, `TimeLog`); the filter
is applied only when the supplied `project_id` is truthy as well. -/
def read_all_gen {α : Type} (rows : List α) (proj : Option (α → Option Nat))
    (project_id : Option Nat) : List α :=
  match proj with
  | some f => if pyTruthy project_id then rows.filter (fun r => f r == project_id) else rows
  | none => rows

/-- Repository read of the `users` table: `User` has no `project_id` column. -/
def read_all_user (s : Store) (project_id : Option Nat) : List SUser :=
  read_all_gen s.users none project_id

/-- Repository read of the `time_logs` table: `TimeLog` has no `project_id` column. -/
def read_all_time_log (s : Store) (project_id : Option Nat) : List STimeLog :=
  read_all_gen s.time_logs none project_id

/-- Repository read of the `tasks` table: `Task.project_id` exists. -/
def read_all_task (s : Store) (project_id : Option Nat) : List STask :=
  read_all_gen s.tasks (some (fun t => t.project_id)) project_id

/-- Repository read of the `sprints` table: `Sprint.project_id` exists. -/
def read_all_sprint (s : Store) (project_id : Option Nat) : List SSprint :=
  read_all_gen s.sprints (some (fun sp => sp.project_id)) project_id

/-- Repository read of the `risks` table: `Risk.project_id` exists. -/
def read_all_risk (s : Store) (project_id : Option Nat) : List SRisk :=
  read_all_gen s.risks (some (fun r => r.project_id)) project_id

/-- Embedding of `DatabaseManager.get_total_logged_hours` (app.py lines
245-247): sum of `hours` over the TimeLogs whose `task_id` equals the
given id (a SQL `NULL` column never compares equal). -/
def get_total_logged_hours (s : Store) (task_id : Nat) : ℚ :=
  ((s.time_logs.filter (fun l => l.task_id == some task_id)).map (fun l => l.hours)).sum

/-- Embedding of `DatabaseManager.delete` (app.py lines 227-235) applied
to a `Project`: the ORM relationships `tasks`, `sprints`, `risks` carry
`cascade="all, delete-orphan"` (app.py lines 61-63) and `Task.time_logs`
cascades as well (line 83), so one commit removes the project row, its
tasks, sprints, risks, and the time logs of those tasks.  Surviving
tasks that reference a deleted sprint or a deleted task get that
nullable foreign key nulled out (`null_dead_refs`), since neither
`Sprint.tasks` nor the dependency self-reference has a delete cascade.
The non-exceptional path returns `True`. -/
def delete_project (s : Store) (p : SProject) : Store × Bool :=
  ({ s with
      projects := s.projects.filter (fun q => q.id != p.id),
      tasks := (s.tasks.filter (fun t => t.project_id != some p.id)).map
        (null_dead_refs (project_dead_sprint_ids s p) (project_dead_task_ids s p)),
      sprints := s.sprints.filter (fun sp => sp.project_id != some p.id),
      risks := s.risks.filter (fun r => r.project_id != some p.id),
      time_logs := s.time_logs.filter (fun l =>
        !(s.tasks.any (fun t => t.project_id == some p.id && some t.id == l.task_id))) },
    true)

/-- Streamlit session-state fields touched by `AuthService.authenticate`
(app.py lines 259-269). -/
structure SessionState where
  is_authenticated : Bool
  username : Option String
  user_role : Option String
  user_id : Option Nat
  current_page : String
deriving DecidableEq, Repr

/-- Embedding of `AuthService.authenticate` (app.py lines 259-269).
The SHA-256 hex digest (`AuthService.hash_password`, an external
library call) is passed in as `hashF`.  The first user row matching the
username is fetched (`filter_by(username=...).first()`); if it exists and
its stored hash equals the hash of the supplied password, the session
state is populated and `True` returned; otherwise the session state is
left untouched and `False` returned — the same outward result whether
the username was unknown or the password wrong. -/
def authenticate (hashF : String → String) (s : Store) (sess : SessionState)
    (username password : String) : SessionState × Bool :=
  match s.users.find? (fun u => u.username == username) with
  | some u =>
    if u.password_hash == hashF password then
      ({ is_authenticated := true, username := some u.username,
         user_role := some u.role, user_id := some u.id,
         current_page := "Dashboard" }, true)
    else (sess, false)
  | none => (sess, false)

/-- The TimeLog row built by the kanban "Move & Log" handler
(app.py line 724): `TimeLog(hours=hours_to_log, task_id=task.id,
user_id=st.session_state.user_id)`, with `log_date` defaulting to the
current day and the primary key autoincremented. -/
def new_time_log (s : Store) (hours_to_log : ℚ) (task_id user_id today : Nat) :
    STimeLog :=
  { id := next_log_id s, hours := hours_to_log, log_date := today,
    task_id := some task_id, user_id := some user_id }

/-- Embedding of the combined status-move-and-log mutation of the kanban
board (app.py lines 720-731), with the outcome of the final
`DatabaseManager.update(task)` persist injected as `update_ok` (the code
catches any persistence exception, rolls back, and returns `False`).
Steps, as in the source: `task.status = new_status` (line 721) dirties
the session-attached task object; if `hours_to_log > 0`,
`db_manager.create(new_log)` (line 725) runs `session.add` plus
`session.commit` on the SHARED session — that commit flushes everything
pending, so it persists both the new TimeLog and the already-dirty
status; then `update(task)` merges by primary key and commits.  When
`update` fails, its rollback cannot undo what the earlier commit made
durable: with `hours_to_log > 0` both the TimeLog and the new status
are already persisted, with `hours_to_log = 0` nothing is. -/
def advance_fallible (s : Store) (task : STask) (new_status : String)
    (hours_to_log : ℚ) (user_id today : Nat) (update_ok : Bool) : Store × Bool :=
  let set_status := fun (tasks : List STask) => tasks.map (fun t =>
    if t.id == task.id then { task with status := new_status } else t)
  if hours_to_log > 0 then
    ({ s with
        time_logs := s.time_logs ++ [new_time_log s hours_to_log task.id user_id today],
        tasks := set_status s.tasks },
     update_ok)
  else
    if update_ok then ({ s with tasks := set_status s.tasks }, true)
    else (s, false)

/-- The `advance` operation on its non-exceptional path (spec section 4.3):
both writes persist. -/
def advance (s : Store) (task : STask) (new_status : String)
    (hours_to_log : ℚ) (user_id today : Nat) : Store × Bool :=
  advance_fallible s task new_status hours_to_log user_id today true

/-- Number of whole days of `timedelta(hours=h)` for `h ≥ 0`: the
timedelta normalises to `⌊h/24⌋` days plus a sub-day remainder, and
Python `date + timedelta` uses only the `days` component (seconds and
microseconds are ignored). -/
def timedelta_hours_days (h : ℚ) : ℤ := ⌊h / 24⌋

/-- Start day of the naive timeline projection (app.py line 330):
`task.created_at.date()`. -/
def gantt_start (t : STask) : Nat := t.created_at

/-- End day of the naive timeline projection (app.py line 331):
`start + timedelta(hours=task.estimate_hours) if task.estimate_hours > 0
else start + timedelta(days=1)`, where `start` is a `date`, so the hour
delta contributes only its whole-day part. -/
def gantt_end (t : STask) : ℤ :=
  if t.estimate_hours > 0 then (t.created_at : ℤ) + timedelta_hours_days t.estimate_hours
  else (t.created_at : ℤ) + 1

/-- End of a task's timeline bar measured in hours from the epoch, as the
code computes it (the end day converted to hours). -/
def gantt_end_hours (t : STask) : ℚ := 24 * (gantt_end t : ℚ)

/-- Modelled from the spec: "end = start + estimate-hours (interpreted as
a duration of hours, not calendar-aware)" — the claimed end instant in
hours from the epoch, for comparison with `gantt_end_hours`. -/
def timeline_end_spec (t : STask) : ℚ := 24 * (t.created_at : ℚ) + t.estimate_hours

/-- Week bucket of a day index: with a Monday epoch, both pandas weekly
periods (`to_period('W')`, app.py line 1015) and ISO weeks put days
`7*w .. 7*w+6` into week `w`. -/
def weekOf (d : Nat) : Nat := d / 7

/-- Bucket value of the weekly hours rollup (app.py lines 1014-1016):
`df_logs.groupby(['User', 'Week'])['Hours Logged'].sum()` — the sum of
`hours` over the logs of the given user whose dates fall in week `w`. -/
def weekly_hours (logs : List STimeLog) (user_id w : Nat) : ℚ :=
  ((logs.filter (fun l => l.user_id == some user_id && weekOf l.log_date == w)).map
    (fun l => l.hours)).sum

/-- Weekly rollup of the reports page, fed by
`db_manager.read_all(TimeLog)` (app.py line 997, no project filter). -/
def reports_weekly (s : Store) (user_id w : Nat) : ℚ :=
  weekly_hours (read_all_time_log s none) user_id w

/-- Dependency-reference targets of a task list (app.py line 844):
`{t.dependency_task_id for t in project_tasks if t.dependency_task_id}` —
the truthy dependency ids. -/
def dependent_ids (tasks : List STask) : List Nat :=
  tasks.filterMap (fun t =>
    if pyTruthy t.dependency_task_id then t.dependency_task_id else none)

/-- Top-level tasks of the WBS view (app.py line 845): tasks that no
truthy dependency reference points to and whose own dependency reference
is falsy. -/
def top_level_tasks (tasks : List STask) : List STask :=
  tasks.filter (fun t =>
    !(dependent_ids tasks).contains t.id && !pyTruthy t.dependency_task_id)

/-- Children of a WBS node (app.py line 854): the tasks whose dependency
reference equals the node's id. -/
def wbs_children (tasks : List STask) (i : Nat) : List STask :=
  tasks.filter (fun t => t.dependency_task_id == some i)

/-- Fueled embedding of `render_wbs_node` (app.py lines 848-855) run over
a worklist of sibling nodes: each rendered node contributes the pair
(level, task id) — the source emits one markdown line with `level+1`
bullet characters per node — followed depth-first by the renderings of
its children, then its right siblings.  `none` marks fuel exhaustion;
the source recursion itself carries no bound. -/
def render_wbs : Nat → List STask → List STask → Nat → Option (List (Nat × Nat))
  | _, _, [], _ => some []
  | 0, _, _ :: _, _ => none
  | fuel+1, tasks, t :: ts, level =>
    match render_wbs fuel tasks (wbs_children tasks t.id) (level+1) with
    | none => none
    | some sub =>
      match render_wbs (fuel+1) tasks ts level with
      | none => none
      | some rest => some ((level, t.id) :: sub ++ rest)
termination_by fuel _ pend _ => (fuel, pend.length)

/-- The WBS forest rendered by `gantt_page` (app.py lines 857-860): the
recursion started at every top-level task, at level 0.  The fuel
`tasks.length + 1` bounds the recursion depth; `render_wbs_total` below
proves it is never exhausted when ids are well-formed. -/
def gantt_wbs (tasks : List STask) : Option (List (Nat × Nat)) :=
  render_wbs (tasks.length + 1) tasks (top_level_tasks tasks) 0

/-! Concrete sample data used by counterexamples and witnesses. -/

/-- Template task: a plain task of project 1 with no dependency. -/
def base_task : STask :=
  { id := 1, title := "A", status := "To Do", priority := "High",
    estimate_hours := 1, dependency_task_id := none, sprint_id := none,
    project_id := some 1, assigned_to_id := some 1, created_at := 0 }

/-- Chain example: task A has no dependency. -/
def chainA : STask := base_task

/-- Chain example: task B depends on A. -/
def chainB : STask := { base_task with id := 2, title := "B", dependency_task_id := some 1 }

/-- Chain example: task C depends on B. -/
def chainC : STask := { base_task with id := 3, title := "C", dependency_task_id := some 2 }

/-- The three-task chain A ← B ← C of the spec's WBS example. -/
def chain_tasks : List STask := [chainA, chainB, chainC]

/-- Cycle example: task A depends on C. -/
def cycA : STask := { base_task with id := 1, dependency_task_id := some 3 }

/-- Cycle example: task B depends on A. -/
def cycB : STask := { base_task with id := 2, title := "B", dependency_task_id := some 1 }

/-- Cycle example: task C depends on B. -/
def cycC : STask := { base_task with id := 3, title := "C", dependency_task_id := some 2 }

/-- The cyclic dependency input A → C → B → A of the spec. -/
def cycle_tasks : List STask := [cycA, cycB, cycC]

/-- A task with estimate 0, created on day 0. -/
def zero_est_task : STask := { base_task with estimate_hours := 0 }

/-- A task with an 8-hour estimate, created on day 0. -/
def eight_hour_task : STask := { base_task with estimate_hours := 8 }

/-- A store holding one seeded admin user and nothing else. -/
def admin_store : Store :=
  { users := [{ id := 1, username := "admin", email := "admin@tool.com",
                password_hash := "h0", role := "Admin" }],
    projects := [], tasks := [], sprints := [], risks := [], time_logs := [] }

/-- A registration attempt reusing the seeded username `admin`. -/
def dup_admin_user : SUser :=
  { id := 0, username := "admin", email := "new@x.com",
    password_hash := "h1", role := "Team Member" }

/-- A fresh registration: username and email not in `admin_store`. -/
def alice_user : SUser :=
  { id := 0, username := "alice", email := "alice@x.com",
    password_hash := "h2", role := "Team Member" }

/-- A second registration reusing alice's username with a different email. -/
def alice_dup_user : SUser :=
  { id := 0, username := "alice", email := "other@x.com",
    password_hash := "h3", role := "Project Manager" }

/-- A populated store: one project (id 1) with two tasks, one sprint, one
risk, a time log on each task, plus an unrelated project 2 with a task
and its log. -/
def rich_store : Store :=
  { users := [{ id := 1, username := "admin", email := "admin@tool.com",
                password_hash := "h0", role := "Admin" }],
    projects := [⟨1, "Core", "In Progress", "High", some 1⟩,
                 ⟨2, "Other", "Planning", "Low", some 1⟩],
    tasks := [base_task,
              { base_task with id := 2, title := "B" },
              { base_task with
                  id := 3, title := "X", project_id := some 2,
                  sprint_id := some 1, dependency_task_id := some 1 }],
    sprints := [⟨1, "Sprint 1", "Active", some 1⟩],
    risks := [⟨1, "Migration", "Open", some 1, some 1⟩],
    time_logs := [⟨1, 9/2, 0, some 1, some 1⟩,
                  ⟨2, 2, 1, some 2, some 1⟩,
                  ⟨3, 3, 2, some 3, some 1⟩] }

/-- The project with id 1 of `rich_store`. -/
def core_project : SProject := ⟨1, "Core", "In Progress", "High", some 1⟩

/-- A store whose only rows are three time logs: two by user 1 in week 0
(days 1 and 3), one by user 1 in week 1 (day 8). -/
def logs_store : Store :=
  { users := [], projects := [], tasks := [], sprints := [], risks := [],
    time_logs := [⟨1, 2, 1, some 1, some 1⟩,
                  ⟨2, 3/2, 3, some 2, some 1⟩,
                  ⟨3, 4, 8, some 1, some 1⟩] }

/-- The pre-login session state. -/
def guest_session : SessionState :=
  { is_authenticated := false, username := none, user_role := none,
    user_id := none, current_page := "Login" }

/-- Invariant carried through the WBS recursion: `anc` is the chain of
ancestors of the pending sibling list `pend` (nearest parent first),
linked by dependency references, rooted (its last element has a falsy
dependency reference), with no repeated ids; when `anc` is empty, `pend`
consists of top-level tasks. -/
structure WbsInv (tasks anc pend : List STask) : Prop where
  anc_sub : ∀ a ∈ anc, a ∈ tasks
  anc_nodup : (anc.map (fun x => x.id)).Nodup
  anc_chain : List.Chain' (fun x y => x.dependency_task_id = some y.id) anc
  anc_last : ∀ r, anc.getLast? = some r → pyTruthy r.dependency_task_id = false
  pend_sub : ∀ p ∈ pend, p ∈ tasks
  pend_dep : ∀ a, anc.head? = some a → ∀ p ∈ pend, p.dependency_task_id = some a.id
  pend_root : anc = [] → ∀ p ∈ pend, pyTruthy p.dependency_task_id = false

/-! Helper lemmas. -/

/-- Creating a user whose username or email is already taken fails and
leaves the store unchanged. -/
theorem create_user_conflict_eq (s : Store) (u : SUser)
    (h : user_conflict s u = true) : create_user s u = (s, false) := by
  simp [create_user, h]

/-- Creating a user with fresh username and email appends the row with
an autoincremented id and succeeds. -/
theorem create_user_fresh_eq (s : Store) (u : SUser)
    (h : user_conflict s u = false) :
    create_user s u
      = ({ s with users := s.users ++ [{ u with id := next_user_id s }] }, true) := by
  simp [create_user, h]

/-- A null-out that still holds a value did not hit a dead reference,
and held the same value before. -/
theorem null_dead_ref_some (dead : List Nat) (o : Option Nat) (i : Nat)
    (h : null_dead_ref dead o = some i) : i ∉ dead ∧ o = some i := by
  cases o with
  | none => simp [null_dead_ref] at h
  | some j =>
    simp only [null_dead_ref] at h
    by_cases hc : dead.contains j
    · rw [if_pos hc] at h
      cases h
    · rw [if_neg hc] at h
      injection h with hij
      subst hij
      refine ⟨?_, rfl⟩
      intro hmem
      exact hc ((@List.elem_iff _ _ _ j dead).mpr hmem)

/-- A reference to no deleted row is left unchanged by the null-out. -/
theorem null_dead_ref_not_dead (dead : List Nat) (o : Option Nat)
    (h : ∀ i, o = some i → i ∉ dead) : null_dead_ref dead o = o := by
  cases o with
  | none => rfl
  | some j =>
    have hnc : ¬(dead.contains j = true) := by
      intro hc
      exact h j rfl ((@List.elem_iff _ _ _ j dead).mp hc)
    simp only [null_dead_ref]
    rw [if_neg hnc]

/-- A task referencing no deleted sprint and no deleted task survives a
project delete verbatim. -/
theorem null_dead_refs_eq_self (ds dt : List Nat) (t : STask)
    (h1 : ∀ i, t.sprint_id = some i → i ∉ ds)
    (h2 : ∀ i, t.dependency_task_id = some i → i ∉ dt) :
    null_dead_refs ds dt t = t := by
  unfold null_dead_refs
  rw [null_dead_ref_not_dead ds _ h1, null_dead_ref_not_dead dt _ h2]

/-! Claim C1. -/

/-- Claim C1, counterexample: the claim quantifies over every store
state, but in a store that already contains a user with the chosen
username (here the seeded `admin`), the FIRST create already fails and
the store is unchanged — it does not return success as the claim states. -/
theorem create_duplicate_username_counterexample :
    (create_user admin_store dup_admin_user).2 = false ∧
    (create_user admin_store dup_admin_user).1 = admin_store := by
  constructor <;> rfl

/-- Claim C1, amended: for every store state in which the first user's
username and email are not yet taken, creating two Users with the same
username makes the first create succeed and the second fail with the
uniqueness violation (a caught `IntegrityError`, returned as `false`
without raising), the failed create leaves the store unchanged, and the
store afterwards contains exactly one User with that username. -/
theorem create_duplicate_username_unique (s : Store) (u1 u2 : SUser)
    (hfresh : ∀ v ∈ s.users, v.username ≠ u1.username ∧ v.email ≠ u1.email)
    (hsame : u2.username = u1.username) :
    (create_user s u1).2 = true ∧
    (create_user (create_user s u1).1 u2).2 = false ∧
    (create_user (create_user s u1).1 u2).1 = (create_user s u1).1 ∧
    ((create_user (create_user s u1).1 u2).1.users.filter
        (fun v => v.username == u1.username)).length = 1 := by
  have hc1 : user_conflict s u1 = false := by
    simp only [user_conflict, List.any_eq_false]
    intro v hv
    simp only [Bool.or_eq_true, beq_iff_eq, not_or]
    exact ⟨(hfresh v hv).1, (hfresh v hv).2⟩
  have h1 := create_user_fresh_eq s u1 hc1
  have hc2 : user_conflict (create_user s u1).1 u2 = true := by
    rw [h1]
    simp only [user_conflict, List.any_eq_true]
    refine ⟨{ u1 with id := next_user_id s }, by simp, ?_⟩
    simp [hsame]
  have h2 := create_user_conflict_eq _ u2 hc2
  refine ⟨by rw [h1], by rw [h2], by rw [h2], ?_⟩
  rw [h2, h1]
  have hnil : s.users.filter (fun v => v.username == u1.username) = [] := by
    rw [List.filter_eq_nil_iff]
    intro v hv
    simp [(hfresh v hv).1]
  simp [List.filter_append, hnil]

/-- Claim C1, witness: the amended theorem applied to the empty-of-alice
store and two registrations sharing the username `alice`. -/
theorem create_duplicate_username_unique_witness :
    (create_user admin_store alice_user).2 = true ∧
    (create_user (create_user admin_store alice_user).1 alice_dup_user).2 = false ∧
    (create_user (create_user admin_store alice_user).1 alice_dup_user).1
      = (create_user admin_store alice_user).1 ∧
    ((create_user (create_user admin_store alice_user).1 alice_dup_user).1.users.filter
        (fun v => v.username == alice_user.username)).length = 1 :=
  create_duplicate_username_unique admin_store alice_user alice_dup_user
    (by decide) (by decide)

/-! Claim C2. -/

/-- Claim C2: deleting a Project removes, in one atomic store update, the
project row, every Task, Sprint and Risk referencing it, and every
TimeLog owned by one of its Tasks; no surviving task is left referencing
a deleted sprint or a deleted task (the ORM nulls those foreign keys);
every non-dependent row survives — with its dead references nulled, and
verbatim when it had none — and the counts add up (all N tasks,
M sprints, K risks and their logs are gone).  No partial cascade is
observable: the store moves in a single step from the old to the new
value. -/
theorem delete_project_cascade (s : Store) (p : SProject) :
    (delete_project s p).2 = true ∧
    (∀ q ∈ (delete_project s p).1.projects, q.id ≠ p.id) ∧
    (∀ t ∈ (delete_project s p).1.tasks, t.project_id ≠ some p.id) ∧
    (∀ sp ∈ (delete_project s p).1.sprints, sp.project_id ≠ some p.id) ∧
    (∀ r ∈ (delete_project s p).1.risks, r.project_id ≠ some p.id) ∧
    (∀ l ∈ (delete_project s p).1.time_logs,
      ∀ t ∈ s.tasks, t.project_id = some p.id → l.task_id ≠ some t.id) ∧
    (∀ t ∈ (delete_project s p).1.tasks, ∀ i : Nat,
      (t.sprint_id = some i → i ∉ project_dead_sprint_ids s p) ∧
      (t.dependency_task_id = some i → i ∉ project_dead_task_ids s p)) ∧
    (∀ q ∈ s.projects, q.id ≠ p.id → q ∈ (delete_project s p).1.projects) ∧
    (∀ t ∈ s.tasks, t.project_id ≠ some p.id →
      null_dead_refs (project_dead_sprint_ids s p) (project_dead_task_ids s p) t
        ∈ (delete_project s p).1.tasks) ∧
    (∀ t ∈ s.tasks, t.project_id ≠ some p.id →
      (∀ i, t.sprint_id = some i → i ∉ project_dead_sprint_ids s p) →
      (∀ i, t.dependency_task_id = some i → i ∉ project_dead_task_ids s p) →
      t ∈ (delete_project s p).1.tasks) ∧
    (∀ sp ∈ s.sprints, sp.project_id ≠ some p.id → sp ∈ (delete_project s p).1.sprints) ∧
    (∀ r ∈ s.risks, r.project_id ≠ some p.id → r ∈ (delete_project s p).1.risks) ∧
    (∀ l ∈ s.time_logs,
      (∀ t ∈ s.tasks, t.project_id = some p.id → l.task_id ≠ some t.id) →
        l ∈ (delete_project s p).1.time_logs) ∧
    (delete_project s p).1.users = s.users ∧
    (delete_project s p).1.tasks.length
      + (s.tasks.filter (fun t => t.project_id == some p.id)).length = s.tasks.length ∧
    (delete_project s p).1.sprints.length
      + (s.sprints.filter (fun sp => sp.project_id == some p.id)).length = s.sprints.length ∧
    (delete_project s p).1.risks.length
      + (s.risks.filter (fun r => r.project_id == some p.id)).length = s.risks.length ∧
    (delete_project s p).1.time_logs.length
      + (s.time_logs.filter (fun l =>
          s.tasks.any (fun t => t.project_id == some p.id && some t.id == l.task_id))).length
      = s.time_logs.length := by
  refine ⟨rfl, ?_, ?_, ?_, ?_, ?_, ?_, ?_, ?_, ?_, ?_, ?_, ?_, rfl, ?_, ?_, ?_, ?_⟩
  · intro q hq
    simp only [delete_project, List.mem_filter, bne_iff_ne, ne_eq] at hq
    exact hq.2
  · intro t ht
    simp only [delete_project, List.mem_map, List.mem_filter, bne_iff_ne, ne_eq] at ht
    obtain ⟨x, ⟨hx, hxp⟩, rfl⟩ := ht
    exact hxp
  · intro sp hsp
    simp only [delete_project, List.mem_filter, bne_iff_ne, ne_eq] at hsp
    exact hsp.2
  · intro r hr
    simp only [delete_project, List.mem_filter, bne_iff_ne, ne_eq] at hr
    exact hr.2
  · intro l hl t ht hproj
    simp only [delete_project, List.mem_filter, Bool.not_eq_true', List.any_eq_false,
      Bool.and_eq_true, beq_iff_eq, not_and] at hl
    intro habs
    exact absurd habs.symm (hl.2 t ht hproj)
  · intro t ht i
    simp only [delete_project, List.mem_map, List.mem_filter] at ht
    obtain ⟨x, ⟨hx, hxp⟩, rfl⟩ := ht
    constructor
    · intro hs
      exact (null_dead_ref_some _ _ i hs).1
    · intro hd
      exact (null_dead_ref_some _ _ i hd).1
  · intro q hq hne
    simp only [delete_project, List.mem_filter, bne_iff_ne, ne_eq]
    exact ⟨hq, hne⟩
  · intro t ht hne
    simp only [delete_project, List.mem_map]
    refine ⟨t, ?_, rfl⟩
    simp only [List.mem_filter, bne_iff_ne, ne_eq]
    exact ⟨ht, hne⟩
  · intro t ht hne hs hd
    simp only [delete_project, List.mem_map]
    refine ⟨t, ?_, null_dead_refs_eq_self _ _ t hs hd⟩
    simp only [List.mem_filter, bne_iff_ne, ne_eq]
    exact ⟨ht, hne⟩
  · intro sp hsp hne
    simp only [delete_project, List.mem_filter, bne_iff_ne, ne_eq]
    exact ⟨hsp, hne⟩
  · intro r hr hne
    simp only [delete_project, List.mem_filter, bne_iff_ne, ne_eq]
    exact ⟨hr, hne⟩
  · intro l hl hkeep
    simp only [delete_project, List.mem_filter, Bool.not_eq_true', List.any_eq_false,
      Bool.and_eq_true, beq_iff_eq, not_and]
    refine ⟨hl, fun t ht hproj habs => hkeep t ht hproj habs.symm⟩
  · have := @List.length_eq_length_filter_add _ s.tasks
      (fun t => t.project_id == some p.id)
    simp only [delete_project, List.length_map, bne]
    omega
  · have := @List.length_eq_length_filter_add _ s.sprints
      (fun sp => sp.project_id == some p.id)
    simp only [delete_project, bne]
    omega
  · have := @List.length_eq_length_filter_add _ s.risks
      (fun r => r.project_id == some p.id)
    simp only [delete_project, bne]
    omega
  · have := @List.length_eq_length_filter_add _ s.time_logs
      (fun l =>
        s.tasks.any (fun t => t.project_id == some p.id && some t.id == l.task_id))
    simp only [delete_project]
    omega

/-- Claim C2, witness: the cascade theorem applied to a populated store
and its project 1; the surviving task of project 2 references project
1's sprint and task, exercising the null-out. -/
theorem delete_project_cascade_witness :
    (delete_project rich_store core_project).2 = true ∧
    (∀ t ∈ (delete_project rich_store core_project).1.tasks,
      t.project_id ≠ some core_project.id) ∧
    (∀ t ∈ (delete_project rich_store core_project).1.tasks, ∀ i : Nat,
      (t.sprint_id = some i →
        i ∉ project_dead_sprint_ids rich_store core_project) ∧
      (t.dependency_task_id = some i →
        i ∉ project_dead_task_ids rich_store core_project)) ∧
    (delete_project rich_store core_project).1.tasks.length
      + (rich_store.tasks.filter
          (fun t => t.project_id == some core_project.id)).length
      = rich_store.tasks.length := by
  have h := delete_project_cascade rich_store core_project
  exact ⟨h.1, h.2.2.1, h.2.2.2.2.2.2.1,
    h.2.2.2.2.2.2.2.2.2.2.2.2.2.2.1⟩

/-! Claim C3. -/

/-- Claim C3: a successful `advance(task, "Done", 2.5, user)` — the
kanban "Move & Log" handler — raises the task's total logged hours from
H to H + 2.5 and leaves the task's stored status equal to "Done". -/
theorem advance_done_logs_hours (s : Store) (task : STask) (user_id today : Nat)
    (H : ℚ) (hH : get_total_logged_hours s task.id = H) :
    (advance s task "Done" (5/2) user_id today).2 = true ∧
    get_total_logged_hours (advance s task "Done" (5/2) user_id today).1 task.id
      = H + 5/2 ∧
    (∀ t ∈ (advance s task "Done" (5/2) user_id today).1.tasks,
      t.id = task.id → t.status = "Done") := by
  have hpos : ((5 : ℚ)/2 > 0) := by norm_num
  have hadv : advance s task "Done" (5/2) user_id today
      = ({ s with
            time_logs := s.time_logs ++ [new_time_log s (5/2) task.id user_id today],
            tasks := s.tasks.map (fun t =>
              if t.id == task.id then { task with status := "Done" } else t) },
         true) := by
    simp only [advance, advance_fallible, if_pos hpos]
  refine ⟨by rw [hadv], ?_, ?_⟩
  · rw [hadv]
    simp only [get_total_logged_hours, List.filter_append, List.map_append,
      List.sum_append, new_time_log]
    rw [← hH]
    simp [get_total_logged_hours]
  · intro t ht
    rw [hadv] at ht
    simp only [List.mem_map] at ht
    obtain ⟨x, _, rfl⟩ := ht
    by_cases hx : x.id == task.id
    · simp [hx]
    · simp only [hx, if_neg, Bool.false_eq_true, if_false]
      intro hid
      exact absurd (beq_iff_eq.mpr hid) (by simpa using hx)

/-- Claim C3, witness: the theorem applied to the populated store and its
task 1, whose prior logged hours are 4.5. -/
theorem advance_done_logs_hours_witness :
    (advance rich_store base_task "Done" (5/2) 1 3).2 = true ∧
    get_total_logged_hours (advance rich_store base_task "Done" (5/2) 1 3).1
      base_task.id = 9/2 + 5/2 ∧
    (∀ t ∈ (advance rich_store base_task "Done" (5/2) 1 3).1.tasks,
      t.id = base_task.id → t.status = "Done") :=
  advance_done_logs_hours rich_store base_task 1 3 (9/2) (by norm_num [get_total_logged_hours, rich_store, base_task])

/-! Claim C4. -/

/-- Claim C4: in the combined kanban mutation, when `hours_to_log > 0`
the new TimeLog is committed by its own `create` call before the task
update runs, so even when the subsequent persist fails (`update`
returns `False`), the TimeLog remains appended to the store — a failed
status update does not roll it back; the operation is not atomic across
its two writes.  (In fact the coupling is tighter still: the shared
session's commit inside `create` also flushes the dirty `task.status`,
so the new status is already durable too, as the third conjunct
records.) -/
theorem advance_failed_update_keeps_log (s : Store) (task : STask)
    (new_status : String) (h : ℚ) (user_id today : Nat) (hpos : 0 < h) :
    (advance_fallible s task new_status h user_id today false).1.time_logs
      = s.time_logs ++ [new_time_log s h task.id user_id today] ∧
    (advance_fallible s task new_status h user_id today false).2 = false ∧
    (advance_fallible s task new_status h user_id today false).1.tasks
      = s.tasks.map (fun t =>
          if t.id == task.id then { task with status := new_status } else t) := by
  refine ⟨?_, ?_, ?_⟩ <;> simp [advance_fallible, if_pos hpos]

/-- Claim C4, witness: a 2.5-hour log against task 1 of the populated
store survives a failed status persist, which has also already flushed
the status change. -/
theorem advance_failed_update_keeps_log_witness :
    (advance_fallible rich_store base_task "Done" (5/2) 1 3 false).1.time_logs
      = rich_store.time_logs ++ [new_time_log rich_store (5/2) base_task.id 1 3] ∧
    (advance_fallible rich_store base_task "Done" (5/2) 1 3 false).2 = false ∧
    (advance_fallible rich_store base_task "Done" (5/2) 1 3 false).1.tasks
      = rich_store.tasks.map (fun t =>
          if t.id == base_task.id then { base_task with status := "Done" } else t) :=
  advance_failed_update_keeps_log rich_store base_task "Done" (5/2) 1 3 (by norm_num)

/-! Helper lemmas for the WBS view. -/

/-- Falsy optional integers are exactly `None` and `0`. -/
theorem pyTruthy_eq_false_iff (o : Option Nat) :
    pyTruthy o = false ↔ o = none ∨ o = some 0 := by
  cases o with
  | none => simp [pyTruthy]
  | some n => simp [pyTruthy]

/-- Membership in the truthy dependency-target set of a task list. -/
theorem mem_dependent_ids (tasks : List STask) (i : Nat) :
    i ∈ dependent_ids tasks ↔ (∃ u ∈ tasks, u.dependency_task_id = some i) ∧ i ≠ 0 := by
  simp only [dependent_ids, List.mem_filterMap]
  constructor
  · rintro ⟨u, hu, hf⟩
    by_cases hp : pyTruthy u.dependency_task_id
    · rw [if_pos hp] at hf
      refine ⟨⟨u, hu, hf⟩, ?_⟩
      rw [hf] at hp
      simpa [pyTruthy] using hp
    · rw [if_neg hp] at hf
      cases hf
  · rintro ⟨⟨u, hu, hd⟩, hi⟩
    exact ⟨u, hu, by rw [if_pos (by simp [pyTruthy, hd, hi]), hd]⟩

/-- Characterization of the top-level (root) tasks of the WBS view, for
task sets with database-shaped ids (primary keys and foreign keys are
never 0): a task is top-level exactly when no task's dependency
reference points to it and its own dependency reference is NULL. -/
theorem wbs_root_iff (tasks : List STask) (t : STask)
    (hnz : ∀ u ∈ tasks, u.id ≠ 0)
    (hdep : ∀ u ∈ tasks, u.dependency_task_id ≠ some 0) :
    t ∈ top_level_tasks tasks ↔
      t ∈ tasks ∧ (∀ u ∈ tasks, u.dependency_task_id ≠ some t.id) ∧
        t.dependency_task_id = none := by
  simp only [top_level_tasks, List.mem_filter, Bool.and_eq_true, Bool.not_eq_true']
  constructor
  · rintro ⟨htm, hcond⟩
    have hcont : (dependent_ids tasks).contains t.id = false := by
      cases h : (dependent_ids tasks).contains t.id
      · rfl
      · rw [h] at hcond; simp at hcond
    have htr : pyTruthy t.dependency_task_id = false := by
      cases h : pyTruthy t.dependency_task_id
      · rfl
      · rw [h] at hcond; simp at hcond
    refine ⟨htm, ?_, ?_⟩
    · intro u hu habs
      have hmem : t.id ∈ dependent_ids tasks :=
        (mem_dependent_ids tasks t.id).mpr ⟨⟨u, hu, habs⟩, hnz t htm⟩
      rw [← @List.elem_iff _ _ _ t.id (dependent_ids tasks)] at hmem
      rw [show (dependent_ids tasks).elem t.id
            = (dependent_ids tasks).contains t.id from rfl] at hmem
      rw [hcont] at hmem
      cases hmem
    · rcases (pyTruthy_eq_false_iff _).mp htr with h | h
      · exact h
      · exact absurd h (hdep t htm)
  · rintro ⟨htm, hnp, hnone⟩
    refine ⟨htm, ?_⟩
    have h1 : (dependent_ids tasks).contains t.id = false := by
      cases h : (dependent_ids tasks).contains t.id
      · rfl
      · exfalso
        have hmem : t.id ∈ dependent_ids tasks := by
          rw [← @List.elem_iff _ _ _ t.id (dependent_ids tasks)]
          exact h
        obtain ⟨⟨u, hu, hd⟩, -⟩ := (mem_dependent_ids tasks t.id).mp hmem
        exact hnp u hu hd
    exact ⟨h1, by simp [pyTruthy, hnone]⟩

/-- The chain A ← B ← C has no top-level task: A is pointed to by B's
dependency reference, B and C carry dependency references. -/
theorem top_level_chain_eval : top_level_tasks chain_tasks = [] := by decide

/-- The cycle A → C → B → A has no top-level task: every member carries
a dependency reference. -/
theorem top_level_cycle_eval : top_level_tasks cycle_tasks = [] := by decide

/-- The WBS builder renders the empty forest on the three-task chain. -/
theorem gantt_wbs_chain_eval : gantt_wbs chain_tasks = some [] := by
  rw [gantt_wbs, top_level_chain_eval]
  simp [render_wbs]

/-- Distinct ids make the id projection injective on a task list. -/
theorem id_injOn (tasks : List STask)
    (hids : (tasks.map (fun x => x.id)).Nodup) :
    ∀ x ∈ tasks, ∀ y ∈ tasks, x.id = y.id → x = y := by
  intro x hx y hy hxy
  by_contra hne
  have hpair : tasks.Pairwise (fun a b => a.id ≠ b.id) := (List.pairwise_map).mp hids
  have hsymm : Symmetric (fun (a b : STask) => a.id ≠ b.id) := by
    intro a b h e
    exact h e.symm
  exact hpair.forall hsymm hx hy hne hxy

/-- Every member of a chain either is its last element or has a chain
successor drawn from the tail. -/
theorem chain_mem_succ (R : STask → STask → Prop) :
    ∀ (l : List STask), List.Chain' R l → ∀ t ∈ l,
      (∀ h : l ≠ [], t = l.getLast h) ∨ ∃ n ∈ l.tail, R t n := by
  intro l
  induction l with
  | nil =>
    intro _ t ht
    cases ht
  | cons a l' ih =>
    intro hc t ht
    cases l' with
    | nil =>
      left
      intro h
      have hta : t = a := by simpa using ht
      simp [hta]
    | cons b l'' =>
      have hab : R a b := (List.chain'_cons.mp hc).1
      have hc' : List.Chain' R (b :: l'') := (List.chain'_cons.mp hc).2
      rcases List.mem_cons.mp ht with rfl | htl
      · right
        exact ⟨b, by simp, hab⟩
      · rcases ih hc' t htl with hlast | ⟨n, hn, hrn⟩
        · left
          intro h
          rw [List.getLast_cons (by simp)]
          exact hlast (by simp)
        · right
          exact ⟨n, List.mem_cons_of_mem b hn, hrn⟩

/-- A task whose dependency reference points at the head of a rooted
dependency chain with distinct nonzero ids cannot itself lie on the
chain: otherwise the chain link out of it would duplicate the head's id
or contradict the root's falsy reference.  This is why the WBS recursion
can never revisit an ancestor. -/
theorem wbs_no_revisit (tasks : List STask) (a0 : STask) (rest : List STask)
    (hids : (tasks.map (fun x => x.id)).Nodup)
    (hnz : ∀ u ∈ tasks, u.id ≠ 0)
    (hsub : ∀ a ∈ a0 :: rest, a ∈ tasks)
    (hnodup : ((a0 :: rest).map (fun x => x.id)).Nodup)
    (hchain : List.Chain' (fun x y => x.dependency_task_id = some y.id) (a0 :: rest))
    (hlast : pyTruthy ((a0 :: rest).getLast (by simp)).dependency_task_id = false)
    (t : STask) (ht : t ∈ tasks) (htdep : t.dependency_task_id = some a0.id) :
    t.id ∉ (a0 :: rest).map (fun x => x.id) := by
  intro hmem
  obtain ⟨u, hu, hid⟩ := List.mem_map.mp hmem
  have hut : u = t := id_injOn tasks hids u (hsub u hu) t ht hid
  subst hut
  rcases chain_mem_succ _ (a0 :: rest) hchain u hu with hl | ⟨n, hn, hrn⟩
  · rw [← hl (by simp)] at hlast
    rw [htdep] at hlast
    have ha0 : a0.id ≠ 0 := hnz a0 (hsub a0 (by simp))
    simp [pyTruthy] at hlast
    exact ha0 hlast
  · rw [htdep] at hrn
    have hna : n = a0 := by
      have hnid : n.id = a0.id := by
        have hsymm := hrn.symm
        injection hsymm
      exact id_injOn tasks hids n (hsub n (List.mem_cons_of_mem a0 hn)) a0
        (hsub a0 (by simp)) hnid
    have hcontra : ∀ x ∈ rest, ¬x.id = a0.id :=
      (by simpa using hnodup :
        (∀ x ∈ rest, ¬x.id = a0.id) ∧ (rest.map (fun x => x.id)).Nodup).1
    have ha0rest : a0 ∈ rest := by
      rw [← hna]
      simpa using hn
    exact hcontra a0 ha0rest rfl

/-- Fuel sufficiency for the WBS recursion: starting from any sibling
worklist whose ancestor chain satisfies `WbsInv`, fuel equal to the
number of tasks not yet on the chain plus one is never exhausted.  The
recursion depth is bounded because an ancestor chain never repeats a
task (`wbs_no_revisit`). -/
theorem render_wbs_total (tasks : List STask)
    (hids : (tasks.map (fun x => x.id)).Nodup)
    (hnz : ∀ u ∈ tasks, u.id ≠ 0) :
    ∀ n : Nat, ∀ anc pend : List STask, ∀ level : Nat,
      WbsInv tasks anc pend → tasks.length - anc.length = n →
      render_wbs (n + 1) tasks pend level ≠ none := by
  intro n
  induction n using Nat.strong_induction_on with
  | h n IH =>
    intro anc pend level
    induction pend with
    | nil =>
      intro _ _
      simp [render_wbs]
    | cons t ts IHts =>
      intro hinv hn
      have htm : t ∈ tasks := hinv.pend_sub t (by simp)
      have hnotmem : t.id ∉ anc.map (fun x => x.id) := by
        rcases hanc : anc with _ | ⟨a0, rest⟩
        · simp
        · have hdep : t.dependency_task_id = some a0.id :=
            hinv.pend_dep a0 (by rw [hanc]; rfl) t (by simp)
          have hlast' :
              pyTruthy ((a0 :: rest).getLast (by simp)).dependency_task_id = false := by
            apply hinv.anc_last
            rw [hanc]
            exact List.getLast?_eq_getLast _ (by simp)
          exact wbs_no_revisit tasks a0 rest hids hnz
            (by rw [← hanc]; exact hinv.anc_sub)
            (by rw [← hanc]; exact hinv.anc_nodup)
            (by rw [← hanc]; exact hinv.anc_chain) hlast' t htm hdep
      have hnodup' : ((t :: anc).map (fun x => x.id)).Nodup := by
        simpa using List.nodup_cons.mpr ⟨hnotmem, hinv.anc_nodup⟩
      have hsub' : ∀ a ∈ t :: anc, a ∈ tasks := by
        intro a ha
        rcases List.mem_cons.mp ha with rfl | ha'
        · exact htm
        · exact hinv.anc_sub a ha'
      have hchain' :
          List.Chain' (fun x y => x.dependency_task_id = some y.id) (t :: anc) := by
        rcases hanc : anc with _ | ⟨a0, rest⟩
        · exact List.chain'_singleton t
        · exact List.Chain'.cons (hinv.pend_dep a0 (by rw [hanc]; rfl) t (by simp))
            (by rw [← hanc]; exact hinv.anc_chain)
      have hlast' : ∀ r, (t :: anc).getLast? = some r →
          pyTruthy r.dependency_task_id = false := by
        intro r hr
        rcases hanc : anc with _ | ⟨a0, rest⟩
        · rw [hanc] at hr
          simp at hr
          rw [← hr]
          exact hinv.pend_root hanc t (by simp)
        · rw [hanc] at hr
          rw [List.getLast?_cons_cons] at hr
          apply hinv.anc_last
          rw [hanc]
          exact hr
      have hinv' : WbsInv tasks (t :: anc) (wbs_children tasks t.id) := by
        refine ⟨hsub', hnodup', hchain', hlast', ?_, ?_, ?_⟩
        · intro p hp
          exact (List.mem_filter.mp hp).1
        · intro a ha p hp
          have hat : a = t := by
            simp at ha
            exact ha.symm
          subst hat
          have hbeq := (List.mem_filter.mp hp).2
          exact beq_iff_eq.mp hbeq
        · intro habs
          cases habs
      have hsubset : (t :: anc).map (fun x => x.id) ⊆ tasks.map (fun x => x.id) := by
        intro i hi
        obtain ⟨a, ha, rfl⟩ := List.mem_map.mp hi
        exact List.mem_map_of_mem _ (hsub' a ha)
      have hsp := List.subperm_of_subset hnodup' hsubset
      have hlen : anc.length + 1 ≤ tasks.length := by
        have hle := hsp.length_le
        simpa using hle
      have hn1 : 1 ≤ n := by omega
      have hchild_ne := IH (n - 1) (by omega) (t :: anc) (wbs_children tasks t.id)
        (level + 1) hinv' (by simp; omega)
      rw [show n - 1 + 1 = n from by omega] at hchild_ne
      have hinv_ts : WbsInv tasks anc ts :=
        ⟨hinv.anc_sub, hinv.anc_nodup, hinv.anc_chain, hinv.anc_last,
         fun p hp => hinv.pend_sub p (List.mem_cons_of_mem t hp),
         fun a ha p hp => hinv.pend_dep a ha p (List.mem_cons_of_mem t hp),
         fun he p hp => hinv.pend_root he p (List.mem_cons_of_mem t hp)⟩
      have hsib_ne := IHts hinv_ts hn
      cases hchild : render_wbs n tasks (wbs_children tasks t.id) (level + 1) with
      | none => exact absurd hchild hchild_ne
      | some sub =>
        cases hsib : render_wbs (n + 1) tasks ts level with
        | none => exact absurd hsib hsib_ne
        | some rest =>
          simp [render_wbs, hchild, hsib]

/-- The WBS builder of `gantt_page` never exhausts its fuel on a task
set with distinct, nonzero ids — contrary to the spec's note, its
recursion is bounded even on cyclic dependency graphs, because a task
on a cycle has a truthy dependency reference, hence is never top-level
and never reachable from a top-level task. -/
theorem render_wbs_never_exhausts (tasks : List STask)
    (hids : (tasks.map (fun x => x.id)).Nodup)
    (hnz : ∀ u ∈ tasks, u.id ≠ 0) :
    gantt_wbs tasks ≠ none := by
  have hinv : WbsInv tasks [] (top_level_tasks tasks) := by
    refine ⟨?_, ?_, ?_, ?_, ?_, ?_, ?_⟩
    · intro a ha
      cases ha
    · simp
    · exact List.chain'_nil
    · intro r hr
      cases hr
    · intro p hp
      exact (List.mem_filter.mp hp).1
    · intro a ha
      cases ha
    · intro _ p hp
      have hcond := (List.mem_filter.mp hp).2
      cases h : pyTruthy p.dependency_task_id
      · rfl
      · rw [h] at hcond
        simp at hcond
  have h := render_wbs_total tasks hids hnz tasks.length [] (top_level_tasks tasks) 0
    hinv (by simp)
  simpa [gantt_wbs] using h

/-! Claim C5. -/

/-- Claim C5, counterexample: on the chain where C depends on B, B
depends on A and A has no dependency (ids 1, 2, 3), the builder does NOT
produce the single root A with child B with child C — it produces the
empty forest, because B's dependency reference points to A, which
disqualifies A as a root under the builder's own rule. -/
theorem wbs_chain_counterexample :
    gantt_wbs chain_tasks ≠ some [(0, 1), (1, 2), (2, 3)] := by
  rw [gantt_wbs_chain_eval]
  simp

/-- Claim C5, amended: the builder's root rule and child rule are as
claimed — a task is a root exactly when no task's dependency reference
points to it and its own reference is NULL, and the children of a node
are exactly the tasks whose dependency reference equals the node's id,
attached depth-first (the builder is a pure function and mutates
nothing).  However, on the three-task chain A ← B ← C the two rules
leave no root at all (A is pointed to by B), so the builder renders the
empty forest, not the chain rooted at A. -/
theorem wbs_forest_rules (tasks : List STask) (t : STask)
    (hnz : ∀ u ∈ tasks, u.id ≠ 0)
    (hdep : ∀ u ∈ tasks, u.dependency_task_id ≠ some 0) :
    (t ∈ top_level_tasks tasks ↔
      t ∈ tasks ∧ (∀ u ∈ tasks, u.dependency_task_id ≠ some t.id) ∧
        t.dependency_task_id = none) ∧
    (∀ (c : STask) (i : Nat), c ∈ wbs_children tasks i ↔
      c ∈ tasks ∧ c.dependency_task_id = some i) ∧
    gantt_wbs chain_tasks = some [] := by
  refine ⟨wbs_root_iff tasks t hnz hdep, ?_, gantt_wbs_chain_eval⟩
  intro c i
  simp [wbs_children, List.mem_filter]

/-- Claim C5, witness: the amended theorem applied to the chain input
and task A. -/
theorem wbs_forest_rules_witness :
    (chainA ∈ top_level_tasks chain_tasks ↔
      chainA ∈ chain_tasks ∧
        (∀ u ∈ chain_tasks, u.dependency_task_id ≠ some chainA.id) ∧
        chainA.dependency_task_id = none) ∧
    (∀ (c : STask) (i : Nat), c ∈ wbs_children chain_tasks i ↔
      c ∈ chain_tasks ∧ c.dependency_task_id = some i) ∧
    gantt_wbs chain_tasks = some [] :=
  wbs_forest_rules chain_tasks chainA (by decide) (by decide)

/-! Claim C6. -/

/-- Claim C6 (code bug): on the cyclic input where A depends on C, C
depends on B and B depends on A, the WBS builder terminates — every
cycle member carries a dependency reference, so none is top-level and
none is reachable from a top-level task (`render_wbs_never_exhausts`
proves the recursion bounded for every well-formed task set) — but it
renders the empty forest and surfaces nothing: the code has no
`CyclicDependency` condition at all, only the generic no-top-level
warning. -/
theorem wbs_cycle_behavior : gantt_wbs cycle_tasks = some [] := by
  rw [gantt_wbs, top_level_cycle_eval]
  simp [render_wbs]

/-! Claim C7. -/

/-- Claim C7: authenticating with an existing username but a wrong
password and authenticating with an unknown username produce the same
outward result — `False` with the session state untouched — so the
caller learns nothing about which check failed. -/
theorem authenticate_no_enumeration (hashF : String → String) (s : Store)
    (sess : SessionState) (uname1 pw1 uname2 pw2 : String) (u : SUser)
    (hfind : s.users.find? (fun v => v.username == uname1) = some u)
    (hpw : u.password_hash ≠ hashF pw1)
    (hunknown : s.users.find? (fun v => v.username == uname2) = none) :
    authenticate hashF s sess uname1 pw1 = (sess, false) ∧
    authenticate hashF s sess uname2 pw2 = (sess, false) ∧
    authenticate hashF s sess uname1 pw1 = authenticate hashF s sess uname2 pw2 := by
  have h1 : authenticate hashF s sess uname1 pw1 = (sess, false) := by
    unfold authenticate
    rw [hfind]
    have hb : (u.password_hash == hashF pw1) = false := by simpa using hpw
    simp [hb]
  have h2 : authenticate hashF s sess uname2 pw2 = (sess, false) := by
    unfold authenticate
    rw [hunknown]
  exact ⟨h1, h2, by rw [h1, h2]⟩

/-- Claim C7, witness: against the seeded store, `admin` with a wrong
password and the unknown `ghost` both yield the untouched session and
`False`. -/
theorem authenticate_no_enumeration_witness :
    authenticate (fun p => p) admin_store guest_session "admin" "wrong"
      = (guest_session, false) ∧
    authenticate (fun p => p) admin_store guest_session "ghost" "x"
      = (guest_session, false) ∧
    authenticate (fun p => p) admin_store guest_session "admin" "wrong"
      = authenticate (fun p => p) admin_store guest_session "ghost" "x" :=
  authenticate_no_enumeration (fun p => p) admin_store guest_session
    "admin" "wrong" "ghost" "x"
    { id := 1, username := "admin", email := "admin@tool.com",
      password_hash := "h0", role := "Admin" }
    (by decide) (by decide) (by decide)

/-! Claim C8. -/

/-- Claim C8: the weekly rollup sums hours per (user, week) bucket —
two TimeLogs of the same user dated in the same week land in one bucket
holding their sum, and a TimeLog of the following week forms its own
bucket holding just its hours. -/
theorem weekly_rollup_buckets (s : Store) (l1 l2 l3 : STimeLog) (uid w : Nat)
    (hs : s.time_logs = [l1, l2, l3])
    (h1 : l1.user_id = some uid) (h2 : l2.user_id = some uid)
    (h3 : l3.user_id = some uid)
    (hw1 : weekOf l1.log_date = w) (hw2 : weekOf l2.log_date = w)
    (hw3 : weekOf l3.log_date = w + 1) :
    reports_weekly s uid w = l1.hours + l2.hours ∧
    reports_weekly s uid (w + 1) = l3.hours := by
  constructor
  · simp [reports_weekly, read_all_time_log, read_all_gen, weekly_hours, hs,
      h1, h2, h3, hw1, hw2, hw3, Nat.succ_ne_self]
  · simp [reports_weekly, read_all_time_log, read_all_gen, weekly_hours, hs,
      h1, h2, h3, hw1, hw2, hw3, Nat.succ_ne_self, (Nat.succ_ne_self w).symm]

/-- Claim C8, witness: user 1's logs of 2h (day 1) and 1.5h (day 3) sum
into week 0; the 4h log of day 8 opens week 1. -/
theorem weekly_rollup_buckets_witness :
    reports_weekly logs_store 1 0 = 2 + 3/2 ∧
    reports_weekly logs_store 1 (0 + 1) = 4 :=
  weekly_rollup_buckets logs_store
    ⟨1, 2, 1, some 1, some 1⟩ ⟨2, 3/2, 3, some 2, some 1⟩ ⟨3, 4, 8, some 1, some 1⟩
    1 0 rfl rfl rfl rfl rfl rfl rfl

/-! Claim C9. -/

/-- Claim C9, counterexample: the timeline end is NOT `start +
estimate-hours` for every estimate.  With estimate 0 the code yields
`start + 1 day` (24 hours, not 0), and with estimate 8 it yields `start`
itself (the 8-hour timedelta is discarded when added to a `date`), not
`start + 8 hours`. -/
theorem gantt_timeline_counterexample :
    gantt_end_hours zero_est_task ≠ timeline_end_spec zero_est_task ∧
    gantt_end_hours eight_hour_task ≠ timeline_end_spec eight_hour_task := by
  constructor <;>
    norm_num [gantt_end_hours, gantt_end, timedelta_hours_days, timeline_end_spec,
      zero_est_task, eight_hour_task, base_task]

/-- Claim C9, amended: the naive timeline assigns start = the Task's
creation date; for a positive estimate the end is start plus only the
WHOLE-DAY part `⌊estimate/24⌋` of the hour duration (Python date
arithmetic ignores the sub-day remainder of the timedelta), and for
estimate 0 the end is start + 1 day — so at estimate 0 the end always
differs from the claimed `start + estimate-hours`. -/
theorem gantt_timeline_days (t : STask) :
    gantt_start t = t.created_at ∧
    (0 < t.estimate_hours →
      gantt_end t = (t.created_at : ℤ) + ⌊t.estimate_hours / 24⌋) ∧
    (t.estimate_hours ≤ 0 → gantt_end t = (t.created_at : ℤ) + 1) ∧
    (t.estimate_hours = 0 → gantt_end_hours t ≠ timeline_end_spec t) := by
  refine ⟨rfl, ?_, ?_, ?_⟩
  · intro h
    simp [gantt_end, timedelta_hours_days, h]
  · intro h
    simp [gantt_end, not_lt.mpr h]
  · intro h
    have he : gantt_end t = (t.created_at : ℤ) + 1 := by
      simp [gantt_end, h]
    rw [gantt_end_hours, he, timeline_end_spec, h]
    push_cast
    intro habs
    nlinarith [habs]

/-- Claim C9, witness: the amended theorem applied to the
zero-estimate task created on day 0. -/
theorem gantt_timeline_days_witness :
    gantt_start zero_est_task = zero_est_task.created_at ∧
    gantt_end zero_est_task = (zero_est_task.created_at : ℤ) + 1 ∧
    gantt_end_hours zero_est_task ≠ timeline_end_spec zero_est_task :=
  ⟨(gantt_timeline_days zero_est_task).1,
   (gantt_timeline_days zero_est_task).2.2.1 (by norm_num [zero_est_task, base_task]),
   (gantt_timeline_days zero_est_task).2.2.2 (by norm_num [zero_est_task, base_task])⟩

/-! Claim C10. -/

/-- Claim C10: `read_all` applies the project filter only when the model
has a `project_id` attribute and the supplied project id is truthy — for
`User` and `TimeLog` every row is returned whatever the argument, and
for filterable models a `None` or `0` project id silently returns the
whole table, while a nonzero id filters by equality on `project_id`. -/
theorem read_all_project_filter (s : Store) (pid : Option Nat) (n : Nat)
    (hn : n ≠ 0) :
    read_all_user s pid = s.users ∧
    read_all_time_log s pid = s.time_logs ∧
    read_all_task s none = s.tasks ∧
    read_all_task s (some 0) = s.tasks ∧
    read_all_task s (some n) = s.tasks.filter (fun t => t.project_id == some n) ∧
    read_all_sprint s none = s.sprints ∧
    read_all_sprint s (some 0) = s.sprints ∧
    read_all_risk s none = s.risks ∧
    read_all_risk s (some 0) = s.risks := by
  refine ⟨rfl, rfl, ?_, ?_, ?_, ?_, ?_, ?_, ?_⟩ <;>
    simp [read_all_task, read_all_sprint, read_all_risk, read_all_gen, pyTruthy, hn]

/-- Claim C10, witness: the filter semantics at the populated store with
project id 1. -/
theorem read_all_project_filter_witness :
    read_all_user rich_store none = rich_store.users ∧
    read_all_time_log rich_store none = rich_store.time_logs ∧
    read_all_task rich_store none = rich_store.tasks ∧
    read_all_task rich_store (some 0) = rich_store.tasks ∧
    read_all_task rich_store (some 1)
      = rich_store.tasks.filter (fun t => t.project_id == some 1) ∧
    read_all_sprint rich_store none = rich_store.sprints ∧
    read_all_sprint rich_store (some 0) = rich_store.sprints ∧
    read_all_risk rich_store none = rich_store.risks ∧
    read_all_risk rich_store (some 0) = rich_store.risks :=
  read_all_project_filter rich_store none 1 (by decide)

end PM
